import Mathlib

/-!
Shallow embedding of the workflow-app authentication backend.

The source is an Express backend with two controllers:
* `auth.controller.js` — signup / signin / refreshToken / Google social
  sign-in, with a module-level in-memory `users` array;
* `user.controller.js` — getCurrentUser / updateCurrentUser /
  changePassword / deleteCurrentUser, with its OWN module-level in-memory
  `users` array (a distinct store);
plus `middleware/auth.js` (JWT authentication middleware) and the route
validation chains in `routes/*.js`.

Mutation of the arrays is modelled by explicit state passing: each handler
takes the store and returns the updated store on success.  The wall clock
(used for `Date.now()` ids, ISO timestamps and token expiry) is passed in
as a `Nat` parameter.  bcrypt hashing is modelled by an injective encoding
(`bcryptHash`), and `bcrypt.compare` returns an error on a `null` stored
hash, exactly as bcryptjs rejects non-string hash arguments.  JWTs are
modelled as records carrying the claims and the signing secret; `jwtVerify`
distinguishes a wrong-secret (invalid) failure from an expiry failure, as
`jsonwebtoken` distinguishes `JsonWebTokenError` from `TokenExpiredError`.
-/

/-- A user record, as built by the controllers.  Fields a given code path
never sets (e.g. `googleId` for password signups) are `none`/`false`,
matching JavaScript `undefined` reads on absent properties. -/
structure User where
  id : String
  name : String
  email : String
  /-- bcrypt hash of the password; `none` for Google-authenticated users
  (the source stores `password: null` for them). -/
  password : Option String
  googleId : Option String
  role : String
  isActive : Bool
  emailVerified : Bool
  createdAt : Nat
  updatedAt : Nat
  lastLogin : Option Nat
  avatar : Option String
  deriving Repr, DecidableEq

/-- Typed error as produced by `createError(statusCode, message)`. -/
structure ApiError where
  status : Nat
  message : String
  deriving Repr, DecidableEq

/-- Model of `bcrypt.hash` with a fresh salt: an injective one-way
encoding of the plaintext. -/
def bcryptHash (plain : String) : String := "bcrypt$" ++ plain

/-- Model of `await bcrypt.compare(plain, hash)`.  bcryptjs rejects with
`Error("Illegal arguments: …")` when the hash argument is not a string
(the stored `password: null` of a Google-created user); otherwise it
resolves to whether the plaintext hashes to the stored hash. -/
def bcryptCompareE (plain : String) (hash : Option String) : Except String Bool :=
  match hash with
  | none => .error "Illegal arguments: string, object"
  | some h => .ok (bcryptHash plain == h)

/-- A signed JWT: the claims (`userId`, `iat`, `exp`) together with the
secret it was signed with (modelling the signature). -/
structure JwtToken where
  userId : String
  iat : Nat
  exp : Nat
  secret : String
  deriving Repr, DecidableEq

/-- Model of `jwt.sign` with a `userId` claim and an `expiresIn` lifetime,
signing at time `now`. -/
def jwtSign (userId : String) (secret : String) (now lifetime : Nat) : JwtToken :=
  { userId := userId, iat := now, exp := now + lifetime, secret := secret }

/-- The two failure classes of `jwt.verify`: `TokenExpiredError` versus a
structurally/cryptographically invalid token (`JsonWebTokenError`). -/
inductive VerifyError where
  | expired
  | invalid
  deriving Repr, DecidableEq

/-- Model of `jwt.verify(token, secret)` at time `now`: signature check first
(wrong secret ⇒ invalid), then expiry (`now ≥ exp` ⇒ expired). -/
def jwtVerify (tok : JwtToken) (secret : String) (now : Nat) :
    Except VerifyError String :=
  if tok.secret ≠ secret then .error .invalid
  else if now ≥ tok.exp then .error .expired
  else .ok tok.userId

/-- The `config.jwt` object: the process-wide signing secret and the configured
access-token lifetime (`expiresIn`, default `'7d'`). -/
structure JwtConfig where
  secret : String
  expiresIn : Nat
  deriving Repr, DecidableEq

/-- The fixed `'30d'` refresh-token lifetime, in seconds. -/
def thirtyDays : Nat := 2592000

/-- The `generateToken(userId)` helper: access token signed with `config.jwt.secret`,
expiring after `config.jwt.expiresIn`. -/
def generateToken (cfg : JwtConfig) (userId : String) (now : Nat) : JwtToken :=
  jwtSign userId cfg.secret now cfg.expiresIn

/-- The inline `jwt.sign({ userId: user.id }, config.jwt.secret,
{ expiresIn: '30d' })` used for refresh tokens. -/
def issueRefreshToken (cfg : JwtConfig) (userId : String) (now : Nat) : JwtToken :=
  jwtSign userId cfg.secret now thirtyDays

/-- The token-verification step of the `authenticate` middleware
(`auth.js` lines 28–39): `TokenExpiredError` is mapped to
`401 "Token expired"`, every other verification error to
`401 "Invalid token"`, success sets `req.userId`. -/
def authVerifyStep (tok : JwtToken) (secret : String) (now : Nat) :
    Except ApiError String :=
  match jwtVerify tok secret now with
  | .error .expired => .error ⟨401, "Token expired"⟩
  | .error .invalid => .error ⟨401, "Invalid token"⟩
  | .ok uid => .ok uid

/-- The `refreshToken` handler: missing token ⇒ 400; any verification
failure ⇒ `403 "Invalid refresh token"`; otherwise a single new access
token is generated for the decoded `userId`. -/
def refreshTokenHandler (cfg : JwtConfig) (tok : Option JwtToken) (now : Nat) :
    Except ApiError JwtToken :=
  match tok with
  | none => .error ⟨400, "Refresh token is required"⟩
  | some t =>
    match jwtVerify t cfg.secret now with
    | .error _ => .error ⟨403, "Invalid refresh token"⟩
    | .ok uid => .ok (generateToken cfg uid now)

/-- In-place mutation of the first element satisfying `p` (the object
returned by `Array.prototype.find`, mutated through the reference). -/
def updateFirst (p : User → Bool) (f : User → User) : List User → List User
  | [] => []
  | u :: rest => if p u then f u :: rest else u :: updateFirst p f rest

/-- Model of `Array.prototype.findIndex` together with the element found. -/
def findWithIdx (p : User → Bool) : List User → Option (Nat × User)
  | [] => none
  | u :: rest =>
    if p u then some (0, u)
    else (findWithIdx p rest).map (fun iv => (iv.1 + 1, iv.2))

/-- The `signup` handler: email-conflict check, bcrypt-hash the password, push the new
record, issue an access and a refresh token, and answer with the user
minus its password field. -/
def signup (cfg : JwtConfig) (users : List User)
    (name email password : String) (now : Nat) :
    Except ApiError (List User × User × JwtToken × JwtToken) :=
  if (users.find? (fun u => u.email == email)).isSome then
    .error ⟨409, "Email already in use"⟩
  else
    let newUser : User :=
      { id := toString now, name := name, email := email
        password := some (bcryptHash password), googleId := none
        role := "user", isActive := true, emailVerified := false
        createdAt := now, updatedAt := now, lastLogin := none, avatar := none }
    .ok (users ++ [newUser], { newUser with password := none },
         generateToken cfg newUser.id now, issueRefreshToken cfg newUser.id now)

/-- The `signin` handler: find by email (401 if absent), reject deactivated accounts
(403), compare the password against the stored hash (401 on mismatch; a
`null` stored hash makes `bcrypt.compare` reject, surfacing as a 500
through the catch-all error handler), then build the response user (the
destructuring happens before `lastLogin` is stamped), stamp `lastLogin`
on the stored record, and return tokens. -/
def signin (cfg : JwtConfig) (users : List User)
    (email password : String) (now : Nat) :
    Except ApiError (List User × User × JwtToken × JwtToken) :=
  match users.find? (fun u => u.email == email) with
  | none => .error ⟨401, "Invalid credentials"⟩
  | some user =>
    if !user.isActive then .error ⟨403, "Account is deactivated"⟩
    else
      match bcryptCompareE password user.password with
      | .error msg => .error ⟨500, msg⟩
      | .ok false => .error ⟨401, "Invalid credentials"⟩
      | .ok true =>
        .ok (updateFirst (fun u => u.email == email)
               (fun u => { u with lastLogin := some now }) users,
             { user with password := none },
             generateToken cfg user.id now, issueRefreshToken cfg user.id now)

/-- The verified Google identity assertion: subject id, email, display
name and avatar, as extracted from `ticket.getPayload()`. -/
structure GooglePayload where
  sub : String
  email : String
  name : String
  picture : String
  deriving Repr, DecidableEq

/-- The fresh record built by the Google handlers when no user matches. -/
def newGoogleUser (p : GooglePayload) (now : Nat) : User :=
  { id := toString now, googleId := some p.sub, email := p.email
    name := p.name, avatar := some p.picture, password := none
    role := "user", isActive := true, emailVerified := true
    createdAt := now, updatedAt := now, lastLogin := none }

/-- The lookup predicate of the Google handlers:
`u => u.googleId === googleId || u.email === email`. -/
def googleMatch (p : GooglePayload) (u : User) : Bool :=
  u.googleId == some p.sub || u.email == p.email

/-- The find-or-create-or-link core shared by `googleCallback` and
`googleAuth`: `users.find(u => u.googleId === googleId || u.email ===
email)`; if no match, push a fresh record; if the match has no
`googleId` yet, link it and stamp `updatedAt`; otherwise leave the match
untouched.  Returns the updated store and the resolved user. -/
def googleResolve (users : List User) (p : GooglePayload) (now : Nat) :
    List User × User :=
  match users with
  | [] =>
    let nu := newGoogleUser p now
    ([nu], nu)
  | u :: rest =>
    if googleMatch p u then
      if u.googleId.isNone then
        let linked := { u with googleId := some p.sub, updatedAt := now }
        (linked :: rest, linked)
      else (u :: rest, u)
    else
      let r := googleResolve rest p now
      (u :: r.1, r.2)

/-- JavaScript truthiness of an optional string field of `req.body`. -/
def strTruthy : Option String → Bool
  | none => false
  | some s => !(s == "")

/-- JavaScript `v || old`: keep `old` when the request field is absent or falsy. -/
def orElseStr (v : Option String) (old : String) : String :=
  match v with
  | some s => if s == "" then old else s
  | none => old

/-- The `getCurrentUser` handler: find by `req.userId`, 404 if absent, else answer
with the record minus its password field. -/
def getCurrentUser (users : List User) (userId : String) :
    Except ApiError User :=
  match users.find? (fun u => u.id == userId) with
  | none => .error ⟨404, "User not found"⟩
  | some u => .ok { u with password := none }

/-- The `updateCurrentUser` handler: find by id (404 if absent); when a truthy new
email differs from the current one, re-check uniqueness against all
users other than this id (409 on clash); then overwrite the record at
that index with the merged fields and a fresh `updatedAt`. -/
def updateCurrentUser (users : List User) (userId : String)
    (name email : Option String) (now : Nat) :
    Except ApiError (List User × User) :=
  match findWithIdx (fun u => u.id == userId) users with
  | none => .error ⟨404, "User not found"⟩
  | some (i, cur) =>
    if strTruthy email && !(email.getD "" == cur.email)
        && users.any (fun u => u.email == email.getD "" && !(u.id == userId)) then
      .error ⟨409, "Email already in use"⟩
    else
      let updated : User :=
        { cur with name := orElseStr name cur.name
                   email := orElseStr email cur.email
                   updatedAt := now }
      .ok (users.set i updated, { updated with password := none })

/-- The `deleteCurrentUser` handler: find by id (404 if absent), then splice the
record out of the array. -/
def deleteCurrentUser (users : List User) (userId : String) :
    Except ApiError (List User) :=
  match findWithIdx (fun u => u.id == userId) users with
  | none => .error ⟨404, "User not found"⟩
  | some (i, _) => .ok (users.eraseIdx i)

/-- The `changePassword` handler (user controller): find by id (404 if absent),
compare the current password against the stored hash (401 on mismatch,
500 if the stored hash is `null`), then hash the new password and store
it with a fresh `updatedAt`. -/
def changePassword (users : List User) (userId : String)
    (currentPassword newPassword : String) (now : Nat) :
    Except ApiError (List User) :=
  match findWithIdx (fun u => u.id == userId) users with
  | none => .error ⟨404, "User not found"⟩
  | some (i, user) =>
    match bcryptCompareE currentPassword user.password with
    | .error msg => .error ⟨500, msg⟩
    | .ok false => .error ⟨401, "Current password is incorrect"⟩
    | .ok true =>
      .ok (users.set i
        { user with password := some (bcryptHash newPassword), updatedAt := now })

/-- The store after a `changePassword` call: unchanged whenever the
handler answered with an error. -/
def storeAfterChangePassword (users : List User) (userId : String)
    (currentPassword newPassword : String) (now : Nat) : List User :=
  match changePassword users userId currentPassword newPassword now with
  | .ok us => us
  | .error _ => users

/-- The `newPassword` validation chain of `POST /change-password`:
`isLength({ min: 8 })`, `matches(/[a-z]/)`, `matches(/[A-Z]/)`,
`matches(/[0-9]/)`. -/
def newPasswordPolicy (p : String) : Bool :=
  decide (p.length ≥ 8) && p.any Char.isLower && p.any Char.isUpper
    && p.any Char.isDigit

/-- The `/change-password` route: `validateRequest` rejects with a 422
before the controller runs whenever `currentPassword` is empty or the
new password fails the complexity chain; otherwise the controller runs. -/
def changePasswordRoute (users : List User) (userId : String)
    (currentPassword newPassword : String) (now : Nat) :
    Except ApiError (List User) :=
  if currentPassword == "" || !newPasswordPolicy newPassword then
    .error ⟨422, "Validation failed"⟩
  else changePassword users userId currentPassword newPassword now

/-- The store after a `/change-password` request: unchanged whenever
validation or the controller answered with an error. -/
def storeAfterChangePasswordRoute (users : List User) (userId : String)
    (currentPassword newPassword : String) (now : Nat) : List User :=
  match changePasswordRoute users userId currentPassword newPassword now with
  | .ok us => us
  | .error _ => users

/-- The auth-controller operations that touch its `users` array. -/
inductive AuthOp where
  | signupOp (name email password : String) (now : Nat)
  | signinOp (email password : String) (now : Nat)
  | googleOp (p : GooglePayload) (now : Nat)
  deriving Repr

/-- The auth store after one auth-controller request (an errored request
leaves the array untouched). -/
def applyAuthOp (cfg : JwtConfig) (users : List User) : AuthOp → List User
  | .signupOp n e pw now =>
    match signup cfg users n e pw now with
    | .ok r => r.1
    | .error _ => users
  | .signinOp e pw now =>
    match signin cfg users e pw now with
    | .ok r => r.1
    | .error _ => users
  | .googleOp p now => (googleResolve users p now).1

/-- The auth store reached from the initial empty array by a sequence of
auth-controller requests (applied left to right). -/
def runAuthOps (cfg : JwtConfig) (ops : List AuthOp) : List User :=
  ops.foldl (applyAuthOp cfg) []

/-- The whole process state: the auth controller's module-level `users`
array and the user controller's distinct module-level `users` array. -/
structure AppState where
  authUsers : List User
  userUsers : List User
  deriving Repr

/-- Both module-level arrays are initialised empty. -/
def initialState : AppState := { authUsers := [], userUsers := [] }

/-- An auth-controller request acts on the auth store only; the user
controller's array is a different module-level binding. -/
def applyAuthOpApp (cfg : JwtConfig) (s : AppState) (op : AuthOp) : AppState :=
  { s with authUsers := applyAuthOp cfg s.authUsers op }

/-- The process state after a sequence of auth-controller requests. -/
def runAuthOpsApp (cfg : JwtConfig) (ops : List AuthOp) : AppState :=
  ops.foldl (applyAuthOpApp cfg) initialState

/-- No two records of a store share an email. -/
def EmailUnique (users : List User) : Prop :=
  (users.map (fun u => u.email)).Nodup

/-- No two records of a store share an id. -/
def IdUnique (users : List User) : Prop :=
  (users.map (fun u => u.id)).Nodup

instance (users : List User) : Decidable (EmailUnique users) := by
  unfold EmailUnique; infer_instance

instance (users : List User) : Decidable (IdUnique users) := by
  unfold IdUnique; infer_instance

/-- A password-only account (no linked Google id) whose email will also
be asserted by a Google sign-in. -/
def cxUserA : User :=
  { id := "1", name := "A", email := "shared@x.com",
    password := some (bcryptHash "PwAone12"), googleId := none,
    role := "user", isActive := true, emailVerified := false,
    createdAt := 0, updatedAt := 0, lastLogin := none, avatar := none }

/-- A Google-created account carrying the external subject id `gsub`. -/
def cxUserB : User :=
  { id := "2", name := "B", email := "b@x.com",
    password := none, googleId := some "gsub",
    role := "user", isActive := true, emailVerified := true,
    createdAt := 0, updatedAt := 0, lastLogin := none, avatar := none }

/-- A Google-created account already linked to a different subject id. -/
def cxUserC : User :=
  { id := "9", name := "C", email := "c@x.com", password := none,
    googleId := some "other", role := "user", isActive := true,
    emailVerified := true, createdAt := 0, updatedAt := 0,
    lastLogin := none, avatar := none }

/-- A concrete password account, as `signup` would create it, used to
exercise the handlers on concrete inputs. -/
def annUser : User :=
  { id := "u1", name := "A", email := "a@x.com",
    password := some (bcryptHash "Good1234"), googleId := none,
    role := "user", isActive := true, emailVerified := false,
    createdAt := 0, updatedAt := 0, lastLogin := none, avatar := none }

/-- C7: for every `refresh(refreshToken)` request with a supplied token,
a verification failure (invalid or expired alike) answers `403 Forbidden`,
and a successful verification issues exactly one new access token — the
result of `generateToken` for the token's `userId`, with the configured
access lifetime — and no refresh token. -/
theorem C7_refresh_behaviour (cfg : JwtConfig) (t : JwtToken) (now : Nat) :
    (∀ e, jwtVerify t cfg.secret now = .error e →
      refreshTokenHandler cfg (some t) now
        = .error ⟨403, "Invalid refresh token"⟩) ∧
    (∀ uid, jwtVerify t cfg.secret now = .ok uid →
      refreshTokenHandler cfg (some t) now
        = .ok (generateToken cfg uid now) ∧
      (generateToken cfg uid now).exp = now + cfg.expiresIn) := by
  refine ⟨fun e he => ?_, fun uid h => ⟨?_, rfl⟩⟩
  · simp only [refreshTokenHandler, he]
  · simp only [refreshTokenHandler, h]

theorem C7_refresh_behaviour_witness :
    refreshTokenHandler ⟨"s", 7⟩ (some (jwtSign "u1" "s" 0 7)) 3
      = .ok (generateToken ⟨"s", 7⟩ "u1" 3) ∧
    refreshTokenHandler ⟨"s", 7⟩ (some (jwtSign "u1" "w" 0 7)) 3
      = .error ⟨403, "Invalid refresh token"⟩ :=
  ⟨((C7_refresh_behaviour ⟨"s", 7⟩ (jwtSign "u1" "s" 0 7) 3).2 "u1" rfl).1,
   (C7_refresh_behaviour ⟨"s", 7⟩ (jwtSign "u1" "w" 0 7) 3).1 .invalid rfl⟩

/-- C9: an access token from `generateToken` is signed with the same
secret and carries the same claim shape (`userId`) as a refresh token,
so while unexpired it is accepted by the refresh endpoint, which then
issues a fresh access token for that `userId`. -/
theorem C9_access_token_accepted_by_refresh (cfg : JwtConfig) (uid : String)
    (t now : Nat) (h : now < t + cfg.expiresIn) :
    refreshTokenHandler cfg (some (generateToken cfg uid t)) now
      = .ok (generateToken cfg uid now) ∧
    (generateToken cfg uid t).secret = (issueRefreshToken cfg uid t).secret ∧
    (generateToken cfg uid t).userId = (issueRefreshToken cfg uid t).userId := by
  refine ⟨?_, rfl, rfl⟩
  have hv : jwtVerify (generateToken cfg uid t) cfg.secret now = .ok uid := by
    simp only [jwtVerify, generateToken, jwtSign, ne_eq, ge_iff_le]
    rw [if_neg (by simp), if_neg (Nat.not_le.mpr h)]
  simp only [refreshTokenHandler, hv]

theorem C9_access_token_accepted_by_refresh_witness :
    refreshTokenHandler ⟨"s", 7⟩ (some (generateToken ⟨"s", 7⟩ "u1" 0)) 3
      = .ok (generateToken ⟨"s", 7⟩ "u1" 3) :=
  (C9_access_token_accepted_by_refresh ⟨"s", 7⟩ "u1" 0 3 (by decide)).1

/-- C6 counterexample: at the refresh endpoint, an expired token (right
secret, past expiry) and a cryptographically invalid token (wrong
secret) produce the very same `403 "Invalid refresh token"` failure, so
the expiry failure is not distinguishable on that verification path. -/
theorem C6_counterexample :
    jwtVerify (jwtSign "u1" "s" 0 1) "s" 5 = .error .expired ∧
    jwtVerify (jwtSign "u1" "w" 0 9) "s" 5 = .error .invalid ∧
    refreshTokenHandler ⟨"s", 7⟩ (some (jwtSign "u1" "s" 0 1)) 5
      = refreshTokenHandler ⟨"s", 7⟩ (some (jwtSign "u1" "w" 0 9)) 5 ∧
    refreshTokenHandler ⟨"s", 7⟩ (some (jwtSign "u1" "s" 0 1)) 5
      = .error ⟨403, "Invalid refresh token"⟩ := by
  refine ⟨rfl, rfl, rfl, rfl⟩

/-- C6 (amended): the authentication middleware distinguishes an expired
token (`401 "Token expired"`) from an invalid one (`401 "Invalid
token"`), but the refresh endpoint maps both verification failures to
the same `403 "Invalid refresh token"` error. -/
theorem C6_expiry_distinction (cfg : JwtConfig) (tok : JwtToken) (now : Nat) :
    (jwtVerify tok cfg.secret now = .error .expired →
      authVerifyStep tok cfg.secret now = .error ⟨401, "Token expired"⟩) ∧
    (jwtVerify tok cfg.secret now = .error .invalid →
      authVerifyStep tok cfg.secret now = .error ⟨401, "Invalid token"⟩) ∧
    (⟨401, "Token expired"⟩ : ApiError) ≠ ⟨401, "Invalid token"⟩ ∧
    (∀ e, jwtVerify tok cfg.secret now = .error e →
      refreshTokenHandler cfg (some tok) now
        = .error ⟨403, "Invalid refresh token"⟩) := by
  refine ⟨fun h => ?_, fun h => ?_, by decide, fun e he => ?_⟩
  · simp only [authVerifyStep, h]
  · simp only [authVerifyStep, h]
  · simp only [refreshTokenHandler, he]

theorem C6_expiry_distinction_witness :
    authVerifyStep (jwtSign "u1" "s" 0 1) "s" 5 = .error ⟨401, "Token expired"⟩ ∧
    authVerifyStep (jwtSign "u1" "w" 0 9) "s" 5 = .error ⟨401, "Invalid token"⟩ ∧
    refreshTokenHandler ⟨"s", 7⟩ (some (jwtSign "u1" "w" 0 9)) 5
      = .error ⟨403, "Invalid refresh token"⟩ :=
  ⟨(C6_expiry_distinction ⟨"s", 7⟩ (jwtSign "u1" "s" 0 1) 5).1 rfl,
   (C6_expiry_distinction ⟨"s", 7⟩ (jwtSign "u1" "w" 0 9) 5).2.1 rfl,
   (C6_expiry_distinction ⟨"s", 7⟩ (jwtSign "u1" "w" 0 9) 5).2.2.2 .invalid rfl⟩

/-- C5: a `/change-password` request whose new password violates the
complexity policy (length below 8, or no lowercase letter, no uppercase
letter, or no digit) is rejected by the validation chain with a 422
before the controller runs, so no hashing happens and the store is left
unchanged. -/
theorem C5_policy_rejected_before_mutation (users : List User)
    (uid cp np : String) (now : Nat) (h : newPasswordPolicy np = false) :
    changePasswordRoute users uid cp np now = .error ⟨422, "Validation failed"⟩ ∧
    storeAfterChangePasswordRoute users uid cp np now = users := by
  have hif : (cp == "" || !newPasswordPolicy np) = true := by
    simp [h]
  constructor
  · simp only [changePasswordRoute, hif, if_true]
  · simp only [storeAfterChangePasswordRoute, changePasswordRoute, hif, if_true]

theorem C5_policy_rejected_before_mutation_witness :
    newPasswordPolicy "short" = false ∧
    changePasswordRoute [] "u1" "OldPw123" "short" 4
      = .error ⟨422, "Validation failed"⟩ :=
  ⟨by decide,
   (C5_policy_rejected_before_mutation [] "u1" "OldPw123" "short" 4 (by decide)).1⟩

/-- C8: a `changePassword` call whose supplied current password does not
match the stored hash answers `401 "Current password is incorrect"` and
leaves the store — hash, `updatedAt` and all — unchanged. -/
theorem C8_wrong_current_password_no_mutation (users : List User)
    (uid cp np : String) (now : Nat) (i : Nat) (u : User) (h : String)
    (hfind : findWithIdx (fun v => v.id == uid) users = some (i, u))
    (hpw : u.password = some h) (hne : bcryptHash cp ≠ h) :
    changePassword users uid cp np now
      = .error ⟨401, "Current password is incorrect"⟩ ∧
    storeAfterChangePassword users uid cp np now = users := by
  have hc : bcryptCompareE cp u.password = .ok false := by
    simp [bcryptCompareE, hpw, hne]
  constructor
  · simp only [changePassword, hfind, hc]
  · simp only [storeAfterChangePassword, changePassword, hfind, hc]

theorem C8_wrong_current_password_no_mutation_witness :
    changePassword
        [{ id := "u1", name := "A", email := "a@x.com",
           password := some (bcryptHash "RightPw1"), googleId := none,
           role := "user", isActive := true, emailVerified := false,
           createdAt := 0, updatedAt := 0, lastLogin := none, avatar := none }]
        "u1" "WrongPw1" "NewPw123" 4
      = .error ⟨401, "Current password is incorrect"⟩ ∧
    storeAfterChangePassword
        [{ id := "u1", name := "A", email := "a@x.com",
           password := some (bcryptHash "RightPw1"), googleId := none,
           role := "user", isActive := true, emailVerified := false,
           createdAt := 0, updatedAt := 0, lastLogin := none, avatar := none }]
        "u1" "WrongPw1" "NewPw123" 4
      = [{ id := "u1", name := "A", email := "a@x.com",
           password := some (bcryptHash "RightPw1"), googleId := none,
           role := "user", isActive := true, emailVerified := false,
           createdAt := 0, updatedAt := 0, lastLogin := none, avatar := none }] :=
  C8_wrong_current_password_no_mutation _ "u1" "WrongPw1" "NewPw123" 4 0 _
    (bcryptHash "RightPw1") rfl rfl (by decide)

/-- C1 counterexample: the Google handlers store `password: null` users
in the same array `signin` searches; `signin` against such an account —
reachable here by a single Google sign-in — makes `bcrypt.compare`
reject, so the request fails with a 500 through the error handler,
neither `401 Unauthorized` nor a success, refuting the claimed
exhaustive case split. -/
theorem C1_counterexample :
    ((googleResolve [] ⟨"gsub", "g@x.com", "G", "pic"⟩ 1).1.find?
        (fun u => u.email == "g@x.com")).isSome = true ∧
    (∀ u, (googleResolve [] ⟨"gsub", "g@x.com", "G", "pic"⟩ 1).1.find?
        (fun u => u.email == "g@x.com") = some u → u.isActive = true) ∧
    signin ⟨"s", 7⟩ (googleResolve [] ⟨"gsub", "g@x.com", "G", "pic"⟩ 1).1
        "g@x.com" "anyPw" 5
      = .error ⟨500, "Illegal arguments: string, object"⟩ ∧
    (⟨500, "Illegal arguments: string, object"⟩ : ApiError)
        ≠ ⟨401, "Invalid credentials"⟩ := by
  refine ⟨rfl, ?_, rfl, by decide⟩
  intro u hu
  cases hu
  rfl

/-- C1 (amended): `signin` looks up by email (`401` if absent), rejects
deactivated accounts with `403` before any password check, then compares
against the stored hash: `401` on mismatch, success — stamping
`lastLogin` on the stored record and answering with the pre-stamp user
minus its password plus an access and a refresh token — on match; but an
account with no stored hash (a social-login-only record) makes the
comparison reject and the request fails with a 500 internal error. -/
theorem C1_signin_cases (cfg : JwtConfig) (users : List User)
    (email pw : String) (now : Nat) :
    (users.find? (fun v => v.email == email) = none →
      signin cfg users email pw now = .error ⟨401, "Invalid credentials"⟩) ∧
    (∀ u, users.find? (fun v => v.email == email) = some u →
      u.isActive = false →
      signin cfg users email pw now = .error ⟨403, "Account is deactivated"⟩) ∧
    (∀ u, users.find? (fun v => v.email == email) = some u →
      u.isActive = true → u.password = none →
      signin cfg users email pw now
        = .error ⟨500, "Illegal arguments: string, object"⟩) ∧
    (∀ u h, users.find? (fun v => v.email == email) = some u →
      u.isActive = true → u.password = some h → bcryptHash pw ≠ h →
      signin cfg users email pw now = .error ⟨401, "Invalid credentials"⟩) ∧
    (∀ u h, users.find? (fun v => v.email == email) = some u →
      u.isActive = true → u.password = some h → bcryptHash pw = h →
      signin cfg users email pw now
        = .ok (updateFirst (fun v => v.email == email)
                 (fun v => { v with lastLogin := some now }) users,
               { u with password := none },
               generateToken cfg u.id now, issueRefreshToken cfg u.id now)) := by
  refine ⟨fun hn => ?_, fun u hf ha => ?_, fun u hf ha hp => ?_,
    fun u h hf ha hp hne => ?_, fun u h hf ha hp heq => ?_⟩
  · simp only [signin, hn]
  · simp only [signin, hf, ha, Bool.not_false, if_true]
  · simp only [signin, hf, ha, Bool.not_true, if_false, bcryptCompareE, hp]
    rfl
  · have hc : bcryptCompareE pw u.password = .ok false := by
      simp [bcryptCompareE, hp, hne]
    simp only [signin, hf, ha, Bool.not_true, if_false, hc]
    rfl
  · have hc : bcryptCompareE pw u.password = .ok true := by
      simp [bcryptCompareE, hp, heq]
    simp only [signin, hf, ha, Bool.not_true, if_false, hc]
    rfl

theorem C1_signin_cases_witness :
    signin ⟨"s", 7⟩ [annUser] "a@x.com" "Good1234" 5
      = .ok ([{ annUser with lastLogin := some 5 }],
             { annUser with password := none },
             generateToken ⟨"s", 7⟩ "u1" 5, issueRefreshToken ⟨"s", 7⟩ "u1" 5) ∧
    signin ⟨"s", 7⟩ [annUser] "a@x.com" "Wrong123" 5
      = .error ⟨401, "Invalid credentials"⟩ := by
  constructor
  · have := (C1_signin_cases ⟨"s", 7⟩ [annUser] "a@x.com" "Good1234" 5).2.2.2.2
      annUser (bcryptHash "Good1234") rfl rfl rfl rfl
    rw [this]
    rfl
  · exact (C1_signin_cases ⟨"s", 7⟩ [annUser] "a@x.com" "Wrong123" 5).2.2.2.1
      annUser (bcryptHash "Good1234") rfl rfl rfl (by decide)

theorem googleResolve_of_find_none (users : List User) (p : GooglePayload)
    (now : Nat) (h : users.find? (googleMatch p) = none) :
    googleResolve users p now
      = (users ++ [newGoogleUser p now], newGoogleUser p now) := by
  induction users with
  | nil => rfl
  | cons a rest ih =>
    cases hm : googleMatch p a with
    | true => rw [List.find?_cons_of_pos _ hm] at h; exact absurd h (by simp)
    | false =>
      rw [List.find?_cons_of_neg _ (by simp [hm])] at h
      simp only [googleResolve, hm, Bool.false_eq_true, if_false, ih h,
        List.cons_append]

theorem googleResolve_of_find_linked (users : List User) (p : GooglePayload)
    (now : Nat) (u : User) (hf : users.find? (googleMatch p) = some u)
    (hn : u.googleId = none) :
    googleResolve users p now
      = (updateFirst (googleMatch p)
           (fun v => { v with googleId := some p.sub, updatedAt := now }) users,
         { u with googleId := some p.sub, updatedAt := now }) := by
  induction users with
  | nil => simp at hf
  | cons a rest ih =>
    cases hm : googleMatch p a with
    | true =>
      rw [List.find?_cons_of_pos _ hm] at hf
      injection hf with hf
      subst hf
      simp only [googleResolve, updateFirst, hm, if_true, hn,
        Option.isNone_none]
    | false =>
      rw [List.find?_cons_of_neg _ (by simp [hm])] at hf
      simp only [googleResolve, updateFirst, hm, Bool.false_eq_true, if_false,
        ih hf]

theorem googleResolve_of_find_keep (users : List User) (p : GooglePayload)
    (now : Nat) (u : User) (hf : users.find? (googleMatch p) = some u)
    (hs : u.googleId.isSome) :
    googleResolve users p now = (users, u) := by
  induction users with
  | nil => simp at hf
  | cons a rest ih =>
    cases hm : googleMatch p a with
    | true =>
      rw [List.find?_cons_of_pos _ hm] at hf
      injection hf with hf
      subst hf
      rw [Option.isSome_iff_exists] at hs
      obtain ⟨g, hg⟩ := hs
      simp only [googleResolve, hm, if_true, hg, Option.isNone_some,
        Bool.false_eq_true, if_false]
    | false =>
      rw [List.find?_cons_of_neg _ (by simp [hm])] at hf
      have := ih hf
      simp only [googleResolve, hm, Bool.false_eq_true, if_false, this]

/-- C3 counterexample: the store holds `cxUserA` (matches the asserted
email, no Google id) before `cxUserB` (carries the asserted subject id
`gsub`).  The claim resolves `cxUserB`; the single OR-scan of the code
resolves `cxUserA` instead — and even links `gsub` into it. -/
theorem C3_counterexample :
    cxUserB ∈ [cxUserA, cxUserB] ∧
    cxUserB.googleId = some "gsub" ∧
    (googleResolve [cxUserA, cxUserB] ⟨"gsub", "shared@x.com", "G", "pic"⟩ 9).2.id
      = cxUserA.id ∧
    (googleResolve [cxUserA, cxUserB] ⟨"gsub", "shared@x.com", "G", "pic"⟩ 9).2.id
      ≠ cxUserB.id := by
  refine ⟨by simp, rfl, rfl, by decide⟩

/-- C3 (amended): the existing-user lookup is a single forward scan for
`googleId === sub || email === email`, so the resolved user is the first
record in store order matching either field — a record carrying the
asserted subject id is resolved only when no earlier record matches by
email; there is no external-id-first priority. -/
theorem C3_single_scan_resolution (users : List User) (p : GooglePayload)
    (now : Nat) :
    (∀ u, users.find? (googleMatch p) = some u →
      (googleResolve users p now).2
        = (if u.googleId.isNone
           then { u with googleId := some p.sub, updatedAt := now } else u)) ∧
    (users.find? (googleMatch p) = none →
      (googleResolve users p now).2 = newGoogleUser p now) := by
  constructor
  · intro u hf
    cases hg : u.googleId with
    | none =>
      rw [googleResolve_of_find_linked users p now u hf hg]
      simp [hg]
    | some g =>
      rw [googleResolve_of_find_keep users p now u hf (by simp [hg])]
      simp [hg]
  · intro hf
    rw [googleResolve_of_find_none users p now hf]

theorem C3_single_scan_resolution_witness :
    (googleResolve [cxUserA, cxUserB] ⟨"gsub", "shared@x.com", "G", "pic"⟩ 9).2
      = { cxUserA with googleId := some "gsub", updatedAt := 9 } :=
  ((C3_single_scan_resolution [cxUserA, cxUserB]
      ⟨"gsub", "shared@x.com", "G", "pic"⟩ 9).1 cxUserA rfl).trans (by rfl)

/-- C4: a social sign-in never overwrites an already-linked external id:
every record carrying some `googleId` survives unchanged; when the
OR-scan matches a record with no `googleId` yet (necessarily matched by
email), exactly that record is relinked with the asserted subject id and
a fresh `updatedAt`; when the matched record already has a `googleId`,
the store is left entirely untouched. -/
theorem C4_no_overwrite_of_linked_id (users : List User) (p : GooglePayload)
    (now : Nat) :
    (∀ u, u ∈ users → u.googleId.isSome → u ∈ (googleResolve users p now).1) ∧
    (∀ u, users.find? (googleMatch p) = some u → u.googleId = none →
      (googleResolve users p now).1
        = updateFirst (googleMatch p)
            (fun v => { v with googleId := some p.sub, updatedAt := now }) users ∧
      (googleResolve users p now).2
        = { u with googleId := some p.sub, updatedAt := now }) ∧
    (∀ u, users.find? (googleMatch p) = some u → u.googleId.isSome →
      (googleResolve users p now).1 = users ∧
      (googleResolve users p now).2 = u) := by
  refine ⟨?_, fun u hf hn => ?_, fun u hf hs => ?_⟩
  · intro u hu hs
    induction users with
    | nil => simp at hu
    | cons a rest ih =>
      rcases List.mem_cons.1 hu with h | h
      · subst h
        cases hm : googleMatch p u with
        | true =>
          rw [Option.isSome_iff_exists] at hs
          obtain ⟨g, hg⟩ := hs
          simp [googleResolve, hm, hg]
        | false =>
          simp [googleResolve, hm]
      · cases hm : googleMatch p a with
        | true =>
          cases hg : a.googleId with
          | none => simp [googleResolve, hm, hg, List.mem_cons, h]
          | some g => simp [googleResolve, hm, hg, List.mem_cons, h]
        | false =>
          have := ih h
          simp only [googleResolve, hm, Bool.false_eq_true, if_false]
          exact List.mem_cons_of_mem _ this
  · have := googleResolve_of_find_linked users p now u hf hn
    rw [this]
    exact ⟨rfl, rfl⟩
  · have := googleResolve_of_find_keep users p now u hf hs
    rw [this]
    exact ⟨rfl, rfl⟩

theorem C4_no_overwrite_of_linked_id_witness :
    (googleResolve [cxUserC] ⟨"gsub2", "c@x.com", "G", "pic"⟩ 9).1
      = [cxUserC] :=
  ((C4_no_overwrite_of_linked_id [cxUserC] ⟨"gsub2", "c@x.com", "G", "pic"⟩
      9).2.2 cxUserC rfl rfl).1

theorem map_email_updateFirst (p : User → Bool) (f : User → User)
    (hf : ∀ v, (f v).email = v.email) :
    ∀ l : List User,
      (updateFirst p f l).map (fun u => u.email) = l.map (fun u => u.email) := by
  intro l
  induction l with
  | nil => rfl
  | cons a rest ih =>
    cases hp : p a with
    | true => simp [updateFirst, hp, hf a]
    | false => simp [updateFirst, hp, ih]

theorem mem_email_googleResolve (p : GooglePayload) (now : Nat) :
    ∀ (l : List User) (x : String),
      x ∈ (googleResolve l p now).1.map (fun u => u.email) →
      x ∈ l.map (fun u => u.email) ∨ x = p.email := by
  intro l
  induction l with
  | nil =>
    intro x hx
    simp [googleResolve, newGoogleUser] at hx
    exact Or.inr hx
  | cons a rest ih =>
    intro x hx
    cases hm : googleMatch p a with
    | true =>
      cases hg : a.googleId with
      | none =>
        simp only [googleResolve, hm, if_true, hg, Option.isNone_none,
          List.map_cons] at hx
        rcases List.mem_cons.1 hx with h | h
        · exact Or.inl (by simp [h])
        · exact Or.inl (List.mem_cons_of_mem _ h)
      | some g =>
        simp only [googleResolve, hm, if_true, hg, Option.isNone_some,
          Bool.false_eq_true, if_false] at hx
        exact Or.inl hx
    | false =>
      simp only [googleResolve, hm, Bool.false_eq_true, if_false,
        List.map_cons] at hx
      rcases List.mem_cons.1 hx with h | h
      · exact Or.inl (by simp [h])
      · rcases ih x h with h2 | h2
        · exact Or.inl (List.mem_cons_of_mem _ h2)
        · exact Or.inr h2

theorem emailUnique_googleResolve (p : GooglePayload) (now : Nat) :
    ∀ l : List User, EmailUnique l → EmailUnique (googleResolve l p now).1 := by
  intro l
  induction l with
  | nil =>
    intro _
    simp [EmailUnique, googleResolve]
  | cons a rest ih =>
    intro h
    unfold EmailUnique at h
    rw [List.map_cons, List.nodup_cons] at h
    obtain ⟨ha, hrest⟩ := h
    cases hm : googleMatch p a with
    | true =>
      cases hg : a.googleId with
      | none =>
        unfold EmailUnique
        simp only [googleResolve, hm, if_true, hg, Option.isNone_none,
          List.map_cons, List.nodup_cons]
        exact ⟨ha, hrest⟩
      | some g =>
        unfold EmailUnique
        simp only [googleResolve, hm, if_true, hg, Option.isNone_some,
          Bool.false_eq_true, if_false, List.map_cons, List.nodup_cons]
        exact ⟨ha, hrest⟩
    | false =>
      have hne : a.email ≠ p.email := by
        intro hcontra
        have : googleMatch p a = true := by
          simp [googleMatch, hcontra]
        rw [this] at hm
        cases hm
      unfold EmailUnique
      simp only [googleResolve, hm, Bool.false_eq_true, if_false,
        List.map_cons, List.nodup_cons]
      refine ⟨?_, ih hrest⟩
      intro hmem
      rcases mem_email_googleResolve p now rest a.email hmem with h2 | h2
      · exact ha h2
      · exact hne h2

theorem emailUnique_applyAuthOp (cfg : JwtConfig) (users : List User)
    (op : AuthOp) (h : EmailUnique users) :
    EmailUnique (applyAuthOp cfg users op) := by
  cases op with
  | signupOp n e pw now =>
    cases hf : (users.find? (fun u => u.email == e)).isSome with
    | true =>
      simp only [applyAuthOp, signup, hf, if_true]
      exact h
    | false =>
      have hn : users.find? (fun u => u.email == e) = none :=
        Option.not_isSome_iff_eq_none.mp (by simp [hf])
      simp only [applyAuthOp, signup, hf, Bool.false_eq_true, if_false]
      unfold EmailUnique
      rw [List.map_append, List.nodup_append]
      refine ⟨h, by simp, ?_⟩
      intro x hx hx2
      simp only [List.map_cons, List.map_nil, List.mem_singleton] at hx2
      subst hx2
      obtain ⟨u, hu, hue⟩ := List.mem_map.mp hx
      have := List.find?_eq_none.mp hn u hu
      simp only [beq_iff_eq] at this
      exact this hue
  | signinOp e pw now =>
    cases hfind : users.find? (fun u => u.email == e) with
    | none => simp only [applyAuthOp, signin, hfind]; exact h
    | some u =>
      cases hact : u.isActive with
      | false =>
        simp only [applyAuthOp, signin, hfind, hact, Bool.not_false, if_true]
        exact h
      | true =>
        cases hcmp : bcryptCompareE pw u.password with
        | error msg =>
          simp only [applyAuthOp, signin, hfind, hact, Bool.not_true,
            Bool.false_eq_true, if_false, hcmp]
          exact h
        | ok b =>
          cases b with
          | false =>
            simp only [applyAuthOp, signin, hfind, hact, Bool.not_true,
              Bool.false_eq_true, if_false, hcmp]
            exact h
          | true =>
            simp only [applyAuthOp, signin, hfind, hact, Bool.not_true,
              Bool.false_eq_true, if_false, hcmp]
            unfold EmailUnique
            rw [map_email_updateFirst (fun v => v.email == e)
              (fun v => { v with lastLogin := some now }) (fun v => rfl) users]
            exact h
  | googleOp p now =>
    simp only [applyAuthOp]
    exact emailUnique_googleResolve p now users h

theorem emailUnique_runAuthOps_from (cfg : JwtConfig) :
    ∀ (ops : List AuthOp) (s : List User), EmailUnique s →
      EmailUnique (ops.foldl (applyAuthOp cfg) s) := by
  intro ops
  induction ops with
  | nil => intro s hs; exact hs
  | cons op rest ih =>
    intro s hs
    rw [List.foldl_cons]
    exact ih _ (emailUnique_applyAuthOp cfg s op hs)

theorem nodup_set_of_fresh :
    ∀ (l : List String) (i : Nat) (y : String), l.Nodup →
      (∀ j, j ≠ i → l.get? j ≠ some y) → (l.set i y).Nodup := by
  intro l
  induction l with
  | nil => intro i y _ _; simp
  | cons a t ih =>
    intro i y hn hy
    rw [List.nodup_cons] at hn
    obtain ⟨hat, hnt⟩ := hn
    cases i with
    | zero =>
      rw [List.set_cons_zero, List.nodup_cons]
      refine ⟨?_, hnt⟩
      intro hmem
      obtain ⟨j, hj⟩ := List.get?_of_mem hmem
      exact hy (j + 1) (by simp) hj
    | succ k =>
      rw [List.set_cons_succ, List.nodup_cons]
      refine ⟨?_, ih k y hnt ?_⟩
      · intro hmem
        rcases List.mem_or_eq_of_mem_set hmem with h | h
        · exact hat h
        · subst h
          exact hy 0 (by simp) rfl
      · intro j hj
        exact hy (j + 1) (by simpa using hj)

theorem nodup_get?_inj :
    ∀ (l : List String) (i j : Nat) (a : String), l.Nodup →
      l.get? i = some a → l.get? j = some a → i = j := by
  intro l
  induction l with
  | nil => intro i j a _ hi _; simp at hi
  | cons b t ih =>
    intro i j a hn hi hj
    rw [List.nodup_cons] at hn
    obtain ⟨hbt, hnt⟩ := hn
    cases i with
    | zero =>
      cases j with
      | zero => rfl
      | succ k =>
        injection hi with hi
        subst hi
        exact absurd (List.get?_mem (show t.get? k = some b from hj)) hbt
    | succ k =>
      cases j with
      | zero =>
        injection hj with hj
        subst hj
        exact absurd (List.get?_mem (show t.get? k = some b from hi)) hbt
      | succ m =>
        rw [ih k m a hnt hi hj]

theorem findWithIdx_spec (p : User → Bool) :
    ∀ (l : List User) (i : Nat) (u : User),
      findWithIdx p l = some (i, u) → l.get? i = some u ∧ p u = true := by
  intro l
  induction l with
  | nil => intro i u hf; simp [findWithIdx] at hf
  | cons a t ih =>
    intro i u hf
    cases hp : p a with
    | true =>
      rw [findWithIdx, if_pos hp] at hf
      injection hf with hf
      rw [Prod.mk.injEq] at hf
      obtain ⟨h1, h2⟩ := hf
      subst h1
      subst h2
      exact ⟨rfl, hp⟩
    | false =>
      rw [findWithIdx, if_neg (by simp [hp])] at hf
      cases hft : findWithIdx p t with
      | none => rw [hft] at hf; simp at hf
      | some iv =>
        rw [hft] at hf
        injection (show some (iv.1 + 1, iv.2) = some (i, u) from hf) with hf
        rw [Prod.mk.injEq] at hf
        obtain ⟨h1, h2⟩ := hf
        subst h2
        obtain ⟨hg, hpu⟩ := ih iv.1 iv.2 (by rw [hft])
        subst h1
        exact ⟨by simpa using hg, hpu⟩

theorem set_self_of_get? :
    ∀ (l : List String) (i : Nat) (x : String),
      l.get? i = some x → l.set i x = l := by
  intro l
  induction l with
  | nil => intro i x h; simp at h
  | cons a t ih =>
    intro i x h
    cases i with
    | zero =>
      injection h with h
      subst h
      rw [List.set_cons_zero]
    | succ k =>
      rw [List.set_cons_succ, ih k x h]

theorem map_email_set :
    ∀ (l : List User) (i : Nat) (u : User),
      (l.set i u).map (fun v => v.email)
        = (l.map (fun v => v.email)).set i u.email := by
  intro l
  induction l with
  | nil => intro i u; simp
  | cons a t ih =>
    intro i u
    cases i with
    | zero => simp
    | succ k => simp [ih]

theorem emailUnique_updateCurrentUser (users : List User) (uid : String)
    (nm em : Option String) (now : Nat) (users' : List User) (resp : User)
    (hok : updateCurrentUser users uid nm em now = .ok (users', resp))
    (he : EmailUnique users) (hi : IdUnique users) : EmailUnique users' := by
  unfold updateCurrentUser at hok
  split at hok
  · exact absurd hok (by simp)
  case _ i cur hf =>
    obtain ⟨hget, hid⟩ := findWithIdx_spec _ users i cur hf
    split at hok
    · exact absurd hok (by simp)
    case _ hcond =>
      injection hok with hok
      rw [Prod.mk.injEq] at hok
      obtain ⟨h1, _⟩ := hok
      subst h1
      unfold EmailUnique
      rw [map_email_set]
      by_cases hsame : orElseStr em cur.email = cur.email
      · rw [hsame, set_self_of_get? _ i cur.email
          (by rw [List.get?_map, hget]; rfl)]
        exact he
      · -- a truthy email different from the current one, and the clash
        -- check came back clean
        obtain ⟨s, hs⟩ : ∃ s, em = some s ∧ s ≠ "" := by
          cases em with
          | none => exact absurd rfl hsame
          | some s =>
            by_cases hse : s = ""
            · subst hse
              exact absurd (by simp [orElseStr]) hsame
            · exact ⟨s, rfl, hse⟩
        obtain ⟨hem, hsne⟩ := hs
        subst hem
        have hor : orElseStr (some s) cur.email = s := by
          simp [orElseStr, hsne]
        rw [hor] at hsame ⊢
        have htr : strTruthy (some s) = true := by simp [strTruthy, hsne]
        have hgd : (some s).getD "" = s := rfl
        have hany : users.any (fun u => u.email == s && !(u.id == uid)) = false := by
          by_contra hcontra
          rw [Bool.not_eq_false] at hcontra
          apply hcond
          rw [htr, hgd, hcontra]
          simp [hsame]
        apply nodup_set_of_fresh _ i s he
        intro j hj hys
        rw [List.get?_map] at hys
        cases hgj : users.get? j with
        | none => rw [hgj] at hys; simp at hys
        | some u =>
          rw [hgj] at hys
          injection (show some u.email = some s from hys) with hys
          have humem : u ∈ users := List.get?_mem hgj
          have hfalse := List.any_eq_false.mp hany u humem
          cases hu : (u.id == uid) with
          | true =>
            have hcurid : cur.id = uid := by rwa [beq_iff_eq] at hid
            have huid : u.id = uid := by rwa [beq_iff_eq] at hu
            apply hj
            apply nodup_get?_inj (users.map (fun v => v.id)) j i uid
              (by unfold IdUnique at hi; exact hi)
            · rw [List.get?_map, hgj]; simp [huid]
            · rw [List.get?_map, hget]; simp [hcurid]
          | false =>
            apply hfalse
            rw [hys, hu]
            simp


/-- C2: email uniqueness. (i) Every store reachable from the initial
empty array by auth-controller requests has pairwise-distinct emails
(case-sensitive). (ii) A signup whose email is already present always
answers `409 EmailConflict`. (iii) A profile update changing the email
to one held by a different user answers `409 EmailConflict`. (iv) A
successful profile update preserves email uniqueness on every store with
distinct emails and distinct ids. -/
theorem C2_email_uniqueness (cfg : JwtConfig) :
    (∀ ops : List AuthOp, EmailUnique (runAuthOps cfg ops)) ∧
    (∀ (users : List User) (n e pw : String) (now : Nat),
      (∃ u ∈ users, u.email = e) →
      signup cfg users n e pw now = .error ⟨409, "Email already in use"⟩) ∧
    (∀ (users : List User) (uid : String) (nm : Option String) (s : String)
        (now i : Nat) (cur : User),
      findWithIdx (fun u => u.id == uid) users = some (i, cur) →
      s ≠ "" → s ≠ cur.email →
      (∃ u ∈ users, u.email = s ∧ u.id ≠ uid) →
      updateCurrentUser users uid nm (some s) now
        = .error ⟨409, "Email already in use"⟩) ∧
    (∀ (users : List User) (uid : String) (nm em : Option String) (now : Nat)
        (users' : List User) (resp : User),
      updateCurrentUser users uid nm em now = .ok (users', resp) →
      EmailUnique users → IdUnique users → EmailUnique users') := by
  refine ⟨?_, ?_, ?_, ?_⟩
  · intro ops
    exact emailUnique_runAuthOps_from cfg ops [] (by simp [EmailUnique])
  · intro users n e pw now hex
    obtain ⟨u, hu, he⟩ := hex
    have hs : (users.find? (fun v => v.email == e)).isSome = true := by
      rw [List.find?_isSome]
      exact ⟨u, hu, by simp [he]⟩
    simp only [signup, hs, if_true]
  · intro users uid nm s now i cur hf hsne hne hex
    have hcond : (strTruthy (some s) && !((some s).getD "" == cur.email)
        && users.any (fun u => u.email == (some s).getD "" && !(u.id == uid)))
          = true := by
      obtain ⟨u, hu, hue, huid⟩ := hex
      have h1 : strTruthy (some s) = true := by simp [strTruthy, hsne]
      have h2 : ((some s).getD "" == cur.email) = false := by
        simp only [Option.getD_some, beq_eq_false_iff_ne, ne_eq]
        exact hne
      have h3 : users.any (fun u => u.email == s && !(u.id == uid)) = true := by
        rw [List.any_eq_true]
        exact ⟨u, hu, by simp [hue, huid]⟩
      rw [h1, h2]
      simpa using h3
    simp only [updateCurrentUser, hf, hcond, if_true]
  · intro users uid nm em now users' resp hok he hi
    exact emailUnique_updateCurrentUser users uid nm em now users' resp hok he hi

theorem C2_email_uniqueness_witness :
    signup ⟨"s", 7⟩ [annUser] "B" "a@x.com" "Other123" 7
      = .error ⟨409, "Email already in use"⟩ ∧
    EmailUnique (runAuthOps ⟨"s", 7⟩
      [.signupOp "A" "a@x.com" "Good1234" 1,
       .signupOp "B" "a@x.com" "Other123" 2]) :=
  ⟨(C2_email_uniqueness ⟨"s", 7⟩).2.1 [annUser] "B" "a@x.com" "Other123" 7
      ⟨annUser, by simp, rfl⟩,
   (C2_email_uniqueness ⟨"s", 7⟩).1
      [.signupOp "A" "a@x.com" "Good1234" 1,
       .signupOp "B" "a@x.com" "Other123" 2]⟩

theorem runAuthOpsApp_userUsers_eq (cfg : JwtConfig) :
    ∀ (ops : List AuthOp) (s : AppState),
      (ops.foldl (applyAuthOpApp cfg) s).userUsers = s.userUsers := by
  intro ops
  induction ops with
  | nil => intro s; rfl
  | cons op rest ih =>
    intro s
    rw [List.foldl_cons, ih]
    rfl

/-- C10: the two controllers hold distinct module-level `users` arrays:
an auth-controller request (signup / signin / Google sign-in) never
touches the user controller's store, so after any sequence of auth
operations the user controller's store is still the empty array it was
initialised to, and `getCurrentUser`, `updateCurrentUser`,
`changePassword` and `deleteCurrentUser` answer `404 NotFound` for every
id — including the id of any user created via signup. -/
theorem C10_distinct_stores (cfg : JwtConfig) (ops : List AuthOp) :
    (∀ (s : AppState) (op : AuthOp),
      (applyAuthOpApp cfg s op).userUsers = s.userUsers) ∧
    (runAuthOpsApp cfg ops).userUsers = [] ∧
    (∀ uid, getCurrentUser (runAuthOpsApp cfg ops).userUsers uid
      = .error ⟨404, "User not found"⟩) ∧
    (∀ uid nm em now,
      updateCurrentUser (runAuthOpsApp cfg ops).userUsers uid nm em now
        = .error ⟨404, "User not found"⟩) ∧
    (∀ uid cp np now,
      changePassword (runAuthOpsApp cfg ops).userUsers uid cp np now
        = .error ⟨404, "User not found"⟩) ∧
    (∀ uid, deleteCurrentUser (runAuthOpsApp cfg ops).userUsers uid
      = .error ⟨404, "User not found"⟩) := by
  have hu : (runAuthOpsApp cfg ops).userUsers = [] :=
    runAuthOpsApp_userUsers_eq cfg ops initialState
  refine ⟨fun s op => rfl, hu, ?_, ?_, ?_, ?_⟩
  · intro uid; rw [hu]; rfl
  · intro uid nm em now; rw [hu]; rfl
  · intro uid cp np now; rw [hu]; rfl
  · intro uid; rw [hu]; rfl
